import Mathlib

/-!
Shallow embedding of the rapier.js testbed session controller
(`Testbed.js`: `extractWorldDescription`, `Testbed.stepMessage`,
`Testbed.setWorld`, and the `worker.onmessage` handler) together with a
small-step event semantics for the foreground controller, and proofs of
the specification claims about it.

JS numbers are modelled as rationals (the claims under study involve no
floating-point rounding); `undefined`/`null` values are modelled as
`Option.none`; JS objects become Lean structures; the outgoing
`worker.postMessage` calls become an explicit list of emitted messages.
-/

namespace Rapier

/-- A 3-component vector `{x, y, z}`. -/
structure Vec3 where
  x : ℚ
  y : ℚ
  z : ℚ
deriving DecidableEq

/-- A quaternion `{x, y, z, w}`. -/
structure Quat where
  x : ℚ
  y : ℚ
  z : ℚ
  w : ℚ
deriving DecidableEq

/-- A rigid body as observed by the encoder: the values returned by the
getters `handle()`, `bodyType()`, `translation()`, `mass()`. -/
structure Body where
  handle : ℤ
  bodyType : String
  translation : Vec3
  mass : ℚ
deriving DecidableEq

/-- A collider as observed by the encoder.  `radius()` and `halfExtents()`
return `undefined` for shapes that do not define them, modelled as
`Option.none`. -/
structure Collider where
  handle : ℤ
  parentHandle : ℤ
  shapeType : ℤ
  radius : Option ℚ
  density : ℚ
  friction : ℚ
  isSensor : Bool
  halfExtents : Option Vec3
deriving DecidableEq

/-- A joint as observed by the encoder.  `axis1()`, `axis2()`, `frameX1()`,
`frameX2()` return `undefined` (modelled as `none`) for joint types that do
not define them. -/
structure Joint where
  bodyHandle1 : ℤ
  bodyHandle2 : ℤ
  jointType : ℤ
  anchor1 : Vec3
  anchor2 : Vec3
  axis1 : Option Vec3
  axis2 : Option Vec3
  frameX1 : Option Quat
  frameX2 : Option Quat
deriving DecidableEq

/-- The live world object: the fields the controller reads or writes
(`maxVelocityIterations`, `maxPositionIterations`, `timestep`). -/
structure WorldObj where
  maxVelocityIterations : ℕ
  maxPositionIterations : ℕ
  timestep : ℚ
deriving DecidableEq

/-- The `metaWorld` record built by `extractWorldDescription`. -/
structure MetaWorld where
  maxVelocityIterations : ℕ
  maxPositionIterations : ℕ
deriving DecidableEq

/-- A `metaBodies` entry built by `extractWorldDescription`. -/
structure MetaBody where
  handle : ℤ
  type : String
  translation : Vec3
  mass : ℚ
deriving DecidableEq

/-- A `metaColliders` entry built by `extractWorldDescription`.  The
`halfExtents` key is only added when `coll.halfExtents()` is truthy, so it
is an `Option`; `radius` is copied unconditionally (its value is
`undefined` when the shape defines no radius). -/
structure MetaCollider where
  handle : ℤ
  parentHandle : ℤ
  type : ℤ
  radius : Option ℚ
  density : ℚ
  friction : ℚ
  isSensor : Bool
  halfExtents : Option Vec3
deriving DecidableEq

/-- A `metaJoints` entry built by `extractWorldDescription`. -/
structure MetaJoint where
  handle1 : ℤ
  handle2 : ℤ
  type : ℤ
  anchor1 : Vec3
  anchor2 : Vec3
  axis1 : Vec3
  axis2 : Vec3
  frameX1 : Quat
  frameX2 : Quat
deriving DecidableEq

/-- The abstract world description `{world, bodies, colliders, joints}`
returned by `extractWorldDescription`. -/
structure WorldDescription where
  world : MetaWorld
  bodies : List MetaBody
  colliders : List MetaCollider
  joints : List MetaJoint
deriving DecidableEq

/-- Body of the `bodies.map(body => ...)` lambda in
`extractWorldDescription`: copies `handle`, `type`, `translation`
(component-wise) and `mass`. -/
def encodeBody (body : Body) : MetaBody :=
  let pos := body.translation
  { handle := body.handle
    type := body.bodyType
    translation := { x := pos.x, y := pos.y, z := pos.z }
    mass := body.mass }

/-- Body of the `colliders.map(coll => ...)` lambda in
`extractWorldDescription`: builds `meta` with the unconditional fields,
then adds `halfExtents` only when `coll.halfExtents()` is truthy. -/
def encodeCollider (coll : Collider) : MetaCollider :=
  let meta : MetaCollider :=
    { handle := coll.handle
      parentHandle := coll.parentHandle
      type := coll.shapeType
      radius := coll.radius
      density := coll.density
      friction := coll.friction
      isSensor := coll.isSensor
      halfExtents := none }
  match coll.halfExtents with
  | some he => { meta with halfExtents := some { x := he.x, y := he.y, z := he.z } }
  | none => meta

/-- Body of the `joints.map(joint => ...)` lambda in
`extractWorldDescription`: `joint.axis1() || {x:0,y:0,z:0}` etc. become
`Option.getD` with the same neutral defaults. -/
def encodeJoint (joint : Joint) : MetaJoint :=
  let a1 := joint.anchor1
  let a2 := joint.anchor2
  let ax1 := joint.axis1.getD { x := 0, y := 0, z := 0 }
  let ax2 := joint.axis2.getD { x := 0, y := 0, z := 0 }
  let fx1 := joint.frameX1.getD { x := 0, y := 0, z := 0, w := 1 }
  let fx2 := joint.frameX2.getD { x := 0, y := 0, z := 0, w := 1 }
  { handle1 := joint.bodyHandle1
    handle2 := joint.bodyHandle2
    type := joint.jointType
    anchor1 := { x := a1.x, y := a1.y, z := a1.z }
    anchor2 := { x := a2.x, y := a2.y, z := a2.z }
    axis1 := { x := ax1.x, y := ax1.y, z := ax1.z }
    axis2 := { x := ax2.x, y := ax2.y, z := ax2.z }
    frameX1 := { x := fx1.x, y := fx1.y, z := fx1.z, w := fx1.w }
    frameX2 := { x := fx2.x, y := fx2.y, z := fx2.z, w := fx2.w } }

/-- `extractWorldDescription(world, bodies, colliders, joints)`.  The
`joints` argument may be `undefined` (the demos call `setWorld` without
it), hence `Option`; `!joints ? [] : joints.map(...)` becomes the `match`. -/
def extractWorldDescription (world : WorldObj) (bodies : List Body)
    (colliders : List Collider) (joints : Option (List Joint)) :
    WorldDescription :=
  let metaWorld : MetaWorld :=
    { maxVelocityIterations := world.maxVelocityIterations
      maxPositionIterations := world.maxPositionIterations }
  let metaBodies := bodies.map encodeBody
  let metaColliders := colliders.map encodeCollider
  let metaJoints :=
    match joints with
    | none => []
    | some js => js.map encodeJoint
  { world := metaWorld
    bodies := metaBodies
    colliders := metaColliders
    joints := metaJoints }

/-- The fields of `SimulationParameters` the controller logic reads or
writes (`backend`, iteration counts, `running`, `stepping`,
`debugInfos`). -/
structure SimulationParameters where
  backend : String
  numVelocityIter : ℕ
  numPositionIter : ℕ
  running : Bool
  stepping : Bool
  debugInfos : Bool
deriving DecidableEq

/-- The payload of a `step` message built by `Testbed.stepMessage` (the
`type: 'step'` discriminator is carried by the `OutMsg.step` constructor). -/
structure StepMsg where
  maxVelocityIterations : ℕ
  maxPositionIterations : ℕ
  running : Bool
  debugInfos : Bool
deriving DecidableEq

/-- A result message from the background worker: `{token, positions,
stepTime, ...}`; `gui.setDebugInfos(msg.data)` stores the whole record. -/
structure ResultData where
  token : ℤ
  positions : List Vec3
  stepTime : ℚ
deriving DecidableEq

/-- A message posted to the worker via `worker.postMessage`. -/
inductive OutMsg where
  | setWorld (backend : String) (token : ℤ) (desc : WorldDescription)
  | step (msg : StepMsg)
  | takeSnapshot
  | restoreSnapshot
deriving DecidableEq

/-- The controller state: the fields of the `Testbed` instance the claims
depend on.  `Graphics` and `Gui` are external collaborators, so the
presentation effect of `graphics.updatePositions`, `gui.setTiming` and
`gui.setDebugInfos` is modelled by recording the last value passed to each
(`gui.resetTiming()` clears the recorded timing).  `pendingTimers` records
the deferred dispatches created by `setTimeout` that have not fired yet,
each with its step message and absolute fire time. -/
structure Testbed where
  demoToken : ℤ
  lastMessageTime : ℚ
  params : SimulationParameters
  worldTimestep : ℚ
  bodies : List Body
  colliders : List Collider
  joints : List Joint
  graphicsPositions : List Vec3
  guiTiming : Option ℚ
  guiDebug : Option ResultData
  pendingTimers : List (StepMsg × ℚ)
deriving DecidableEq

/-- `Testbed.stepMessage()`: builds the `step` payload from the current
parameters, then clears `running` and `stepping` when `stepping` is set;
returns the message together with the updated parameters. -/
def Testbed.stepMessage (p : SimulationParameters) : StepMsg × SimulationParameters :=
  let res : StepMsg :=
    { maxVelocityIterations := p.numVelocityIter
      maxPositionIterations := p.numPositionIter
      running := p.running || p.stepping
      debugInfos := p.debugInfos }
  let p' := if p.stepping then { p with running := false, stepping := false } else p
  (res, p')

/-- The pacing tail of the `worker.onmessage` handler (after the token
guards): build `stepMessage`, then either post it immediately and set
`lastMessageTime := now`, or schedule it with `setTimeout(...,
now - this.lastMessageTime)` — the scheduled absolute fire time is `now`
plus that delay.  Returns the new state and the messages posted now. -/
def Testbed.pacing (tb : Testbed) (now : ℚ) : Testbed × List OutMsg :=
  let sm := Testbed.stepMessage tb.params
  let tb1 := { tb with params := sm.2 }
  if now - tb1.lastMessageTime ≥ tb1.worldTimestep * 1000 then
    ({ tb1 with lastMessageTime := now }, [OutMsg.step sm.1])
  else
    ({ tb1 with
        pendingTimers := tb1.pendingTimers ++ [(sm.1, now + (now - tb1.lastMessageTime))] },
      [])

/-- The `worker.onmessage` handler.  `msg.data` may be absent (`none`).
The first guard (`!!msg.data && msg.data.token != this.demoToken`) returns
early; the second (`token == demoToken`) forwards `positions` to the
graphics layer, `stepTime` and the whole data record to the GUI; then the
handler falls through to the pacing code. -/
def Testbed.onMessage (tb : Testbed) (data : Option ResultData) (now : ℚ) :
    Testbed × List OutMsg :=
  match data with
  | some d =>
    if d.token ≠ tb.demoToken then
      (tb, [])
    else
      Testbed.pacing
        { tb with
            graphicsPositions := d.positions
            guiTiming := some d.stepTime
            guiDebug := some d } now
  | none => Testbed.pacing tb now

/-- A pending timer firing: the closure posts the captured step message and
sets `lastMessageTime` to the fire time.  (Timers fire one at a time; we
fire the head of the pending list.) -/
def Testbed.timerFire (tb : Testbed) (now : ℚ) : Testbed × List OutMsg :=
  match tb.pendingTimers with
  | [] => (tb, [])
  | (m, _) :: rest =>
    ({ tb with pendingTimers := rest, lastMessageTime := now }, [OutMsg.step m])

/-- `Testbed.setWorld(world, bodies, colliders, joints)`: overwrite the
world's iteration counts, bump `demoToken`, store the lists
(`this.joints = !!joints ? joints : new Array()`), reset the GUI timing,
encode the description, post the `setWorld` message carrying the fresh
token followed by a `stepMessage()`, and set `lastMessageTime := now`. -/
def Testbed.setWorld (tb : Testbed) (world : WorldObj) (bodies : List Body)
    (colliders : List Collider) (joints : Option (List Joint)) (now : ℚ) :
    Testbed × List OutMsg :=
  let world := { world with
    maxVelocityIterations := tb.params.numVelocityIter
    maxPositionIterations := tb.params.numPositionIter }
  let tb := { tb with
    demoToken := tb.demoToken + 1
    bodies := bodies
    colliders := colliders
    joints := joints.getD []
    guiTiming := none
    worldTimestep := world.timestep }
  let desc := extractWorldDescription world bodies colliders joints
  let message := OutMsg.setWorld tb.params.backend tb.demoToken desc
  let sm := Testbed.stepMessage tb.params
  let tb := { tb with params := sm.2, lastMessageTime := now }
  (tb, [message, OutMsg.step sm.1])

/-- An event the foreground controller can experience: a worker message
(`worker.onmessage`), a deferred `setTimeout` firing, a render tick
(`run()` only renders — it posts nothing), or a call to
`Testbed.setWorld` (demo/backend switch). -/
inductive Event where
  | result (data : Option ResultData) (now : ℚ)
  | timerFire (now : ℚ)
  | renderTick
  | callSetWorld (world : WorldObj) (bodies : List Body)
      (colliders : List Collider) (joints : Option (List Joint)) (now : ℚ)

/-- Whether an event is a `setWorld` call. -/
def Event.isSetWorld : Event → Bool
  | .callSetWorld _ _ _ _ _ => true
  | _ => false

/-- The controller together with its environment bookkeeping: `inFlight`
counts step messages posted to the worker and not yet answered, `log` is
the sequence of all messages posted so far. -/
structure Sys where
  tb : Testbed
  inFlight : ℕ
  log : List OutMsg
deriving DecidableEq

/-- Whether an outgoing message is a `step` message. -/
def isStepMsg : OutMsg → Bool
  | OutMsg.step _ => true
  | _ => false

/-- Number of `step` messages in a message list. -/
def countSteps (ms : List OutMsg) : ℕ := ms.countP isStepMsg

/-- The tokens carried by the `setWorld` messages of a message list, in
posting order. -/
def setWorldTokens (ms : List OutMsg) : List ℤ :=
  ms.filterMap fun m =>
    match m with
    | OutMsg.setWorld _ t _ => some t
    | _ => none

/-- One step of the whole system under an event: run the corresponding
controller code, append the posted messages to the log, and account for
in-flight step requests (a result consumes one, each posted step message
creates one). -/
def stepEvent (s : Sys) (e : Event) : Sys :=
  match e with
  | .result d now =>
    let r := Testbed.onMessage s.tb d now
    { tb := r.1, inFlight := s.inFlight - 1 + countSteps r.2, log := s.log ++ r.2 }
  | .timerFire now =>
    let r := Testbed.timerFire s.tb now
    { tb := r.1, inFlight := s.inFlight + countSteps r.2, log := s.log ++ r.2 }
  | .renderTick => s
  | .callSetWorld w b c j now =>
    let r := Testbed.setWorld s.tb w b c j now
    { tb := r.1, inFlight := s.inFlight + countSteps r.2, log := s.log ++ r.2 }

/-- Run a sequence of events. -/
def run (s : Sys) (evs : List Event) : Sys := evs.foldl stepEvent s

/-- Modelled from the spec: when an event can occur.  The background
runtime (`worker.js`, not part of the controller source) delivers exactly
one result per processed `step` message, so a result event requires an
unanswered step request; a timer can fire only while a deferred dispatch
is pending; render ticks and `setWorld` calls are always possible. -/
def enabledB (s : Sys) : Event → Bool
  | .result _ _ => decide (1 ≤ s.inFlight)
  | .timerFire _ => !s.tb.pendingTimers.isEmpty
  | .renderTick => true
  | .callSetWorld _ _ _ _ _ => true

/-- A sequence of events is legal from `s` when each event is enabled in
the state where it occurs. -/
def legalB (s : Sys) : List Event → Bool
  | [] => true
  | e :: rest => enabledB s e && legalB (stepEvent s e) rest

/-- The controller state right after construction: `demoToken = 0` and the
`SimulationParameters` defaults (`backend: 'rapier'`, 4 velocity and 1
position iterations, `running: true`, `stepping: false`,
`debugInfos: false`); no messages posted, nothing pending. -/
def initSys : Sys :=
  { tb :=
      { demoToken := 0
        lastMessageTime := 0
        params :=
          { backend := "rapier"
            numVelocityIter := 4
            numPositionIter := 1
            running := true
            stepping := false
            debugInfos := false }
        worldTimestep := 1 / 60
        bodies := []
        colliders := []
        joints := []
        graphicsPositions := []
        guiTiming := none
        guiDebug := none
        pendingTimers := [] }
    inFlight := 0
    log := [] }

/-- The session store seen by `extractWorldDescription`: its four
arguments, which live in the mutable JS heap. -/
structure Store where
  world : WorldObj
  bodies : List Body
  colliders : List Collider
  joints : Option (List Joint)
deriving DecidableEq

/-- Store-passing embedding of the `bodies.map(...)` loop: JS method calls
could in principle mutate the store, so each element encoding threads the
store explicitly; the getters only read, so it passes through unchanged. -/
def encodeBodiesSt : List Body → Store → List MetaBody × Store
  | [], s => ([], s)
  | body :: rest, s =>
    let mb := encodeBody body
    let r := encodeBodiesSt rest s
    (mb :: r.1, r.2)

/-- Store-passing embedding of the `colliders.map(...)` loop. -/
def encodeCollidersSt : List Collider → Store → List MetaCollider × Store
  | [], s => ([], s)
  | coll :: rest, s =>
    let mc := encodeCollider coll
    let r := encodeCollidersSt rest s
    (mc :: r.1, r.2)

/-- Store-passing embedding of the `joints.map(...)` loop. -/
def encodeJointListSt : List Joint → Store → List MetaJoint × Store
  | [], s => ([], s)
  | joint :: rest, s =>
    let mj := encodeJoint joint
    let r := encodeJointListSt rest s
    (mj :: r.1, r.2)

/-- Store-passing embedding of `!joints ? [] : joints.map(...)`. -/
def encodeJointsSt : Option (List Joint) → Store → List MetaJoint × Store
  | none, s => ([], s)
  | some js, s => encodeJointListSt js s

/-- Store-passing embedding of `extractWorldDescription`: reads the world
parameters and runs the three encoding loops, threading the store. -/
def extractWorldDescriptionSt (s : Store) : WorldDescription × Store :=
  let metaWorld : MetaWorld :=
    { maxVelocityIterations := s.world.maxVelocityIterations
      maxPositionIterations := s.world.maxPositionIterations }
  let rb := encodeBodiesSt s.bodies s
  let rc := encodeCollidersSt rb.2.colliders rb.2
  let rj := encodeJointsSt rc.2.joints rc.2
  ({ world := metaWorld, bodies := rb.1, colliders := rc.1, joints := rj.1 }, rj.2)

/-- Example world used to instantiate theorems on concrete inputs. -/
def wEx : WorldObj :=
  { maxVelocityIterations := 4, maxPositionIterations := 1, timestep := 1 / 60 }

/-- Example result payload carrying a given token. -/
def dEx (t : ℤ) : ResultData := { token := t, positions := [], stepTime := 0 }

/-- A legal event sequence in which a `setWorld` call arrives while a
deferred dispatch is pending, then the fresh result schedules a second
deferred dispatch. -/
def twoTimerTrace : List Event :=
  [ Event.callSetWorld wEx [] [] none 0
  , Event.result (some (dEx 1)) 5
  , Event.callSetWorld wEx [] [] none 6
  , Event.result (some (dEx 2)) 8 ]

/-- Invariant backing token monotonicity: the tokens of the `setWorld`
messages posted so far are pairwise increasing in posting order, and all
of them are bounded by the current `demoToken`. -/
def TokenInv (s : Sys) : Prop :=
  List.Pairwise (· < ·) (setWorldTokens s.log) ∧
    ∀ t ∈ setWorldTokens s.log, t ≤ s.tb.demoToken

/-!  ## Theorems  -/

/-- `run` unfolds one event at a time. -/
theorem run_cons (s : Sys) (e : Event) (evs : List Event) :
    run s (e :: evs) = run (stepEvent s e) evs := rfl

/-- The pacing tail takes one of exactly two shapes: an immediate dispatch
(updating `lastMessageTime`, posting one step message), or a deferred
dispatch appended to the pending-timer list with fire time
`now + (now - lastMessageTime)` (posting nothing). -/
theorem pacing_spec (tb : Testbed) (now : ℚ) :
    Testbed.pacing tb now =
      ({ tb with params := (Testbed.stepMessage tb.params).2, lastMessageTime := now },
        [OutMsg.step (Testbed.stepMessage tb.params).1]) ∨
    Testbed.pacing tb now =
      ({ tb with
          params := (Testbed.stepMessage tb.params).2
          pendingTimers := tb.pendingTimers ++
            [((Testbed.stepMessage tb.params).1, now + (now - tb.lastMessageTime))] },
        []) := by
  unfold Testbed.pacing
  dsimp only
  split
  · exact Or.inl rfl
  · exact Or.inr rfl

/-- The pacing tail never touches the presentation fields. -/
theorem pacing_presentation (tb : Testbed) (now : ℚ) :
    (Testbed.pacing tb now).1.graphicsPositions = tb.graphicsPositions ∧
    (Testbed.pacing tb now).1.guiTiming = tb.guiTiming ∧
    (Testbed.pacing tb now).1.guiDebug = tb.guiDebug := by
  rcases pacing_spec tb now with h | h <;> rw [h] <;> exact ⟨rfl, rfl, rfl⟩

/-- C2: any incoming message that does not carry the current `demoToken`
(a stale result, or a message without data) leaves the presentation state
unchanged: the recorded graphics positions, the displayed step timing and
the debug-info display all keep their values, so only a result whose token
equals the current `demoToken` can affect those fields. -/
theorem Claim2_stale_result_presentation_unchanged (tb : Testbed)
    (data : Option ResultData) (now : ℚ)
    (h : ∀ d ∈ data, d.token ≠ tb.demoToken) :
    (Testbed.onMessage tb data now).1.graphicsPositions = tb.graphicsPositions ∧
    (Testbed.onMessage tb data now).1.guiTiming = tb.guiTiming ∧
    (Testbed.onMessage tb data now).1.guiDebug = tb.guiDebug := by
  match data with
  | none => exact pacing_presentation tb now
  | some d =>
    have hd : d.token ≠ tb.demoToken := h d rfl
    simp only [Testbed.onMessage, if_pos hd]
    exact ⟨trivial, trivial, trivial⟩

/-- Witness for C2 at a concrete stale receipt. -/
theorem Claim2_witness :
    (Testbed.onMessage { initSys.tb with demoToken := 1 } (some (dEx 0)) 5).1.graphicsPositions
        = ({ initSys.tb with demoToken := 1 } : Testbed).graphicsPositions ∧
    (Testbed.onMessage { initSys.tb with demoToken := 1 } (some (dEx 0)) 5).1.guiTiming
        = ({ initSys.tb with demoToken := 1 } : Testbed).guiTiming ∧
    (Testbed.onMessage { initSys.tb with demoToken := 1 } (some (dEx 0)) 5).1.guiDebug
        = ({ initSys.tb with demoToken := 1 } : Testbed).guiDebug :=
  Claim2_stale_result_presentation_unchanged _ _ _
    (by intro d hd; cases hd; decide)

/-- C3: at the failing input (previous dispatch at time `0`, result
received at `now = 5` ms, `timestep = 1/60` s) the handler schedules the
deferred dispatch at absolute time `5 + 5 = 10` ms — it uses the *elapsed*
time `now - lastMessageTime` as the `setTimeout` delay — so the second
step message is sent `10` ms after the first, sooner than one simulated
timestep (`1000/60 ≈ 16.7` ms), and not at the claimed
`now + (timestep*1000 - elapsed)` instant. -/
theorem Claim3_deferred_dispatch_uses_elapsed_as_delay :
    (Testbed.onMessage initSys.tb none 5).1.pendingTimers.map Prod.snd = [5 + 5] ∧
    initSys.tb.lastMessageTime = 0 ∧
    initSys.tb.worldTimestep = 1 / 60 ∧
    ((5 : ℚ) + 5) - 0 < (1 / 60) * 1000 ∧
    ((5 : ℚ) + 5) ≠ 5 + ((1 / 60) * 1000 - (5 - 0)) := by
  refine ⟨?_, rfl, rfl, by norm_num, by norm_num⟩
  norm_num [Testbed.onMessage, Testbed.pacing, Testbed.stepMessage, initSys]

/-- C4 counterexample: a stale result (token `0` while `demoToken = 1`)
makes the handler return early with no state change and no posted
message — no step is dispatched and none is scheduled from this receipt. -/
theorem Claim4_counterexample :
    ((0 : ℤ) ≠ ({ initSys.tb with demoToken := 1 } : Testbed).demoToken) ∧
    Testbed.onMessage { initSys.tb with demoToken := 1 } (some (dEx 0)) 5 =
      ({ initSys.tb with demoToken := 1 }, []) := by
  exact ⟨by decide, rfl⟩

/-- C4 amended: only a receipt that carries the current token (or no data
at all) proceeds to the pacing step; such a receipt either posts the step
message immediately or appends exactly one deferred dispatch.  A stale
result returns early and does neither (see the counterexample). -/
theorem Claim4_amended_fresh_result_paces (tb : Testbed)
    (data : Option ResultData) (now : ℚ)
    (h : ∀ d ∈ data, d.token = tb.demoToken) :
    ((Testbed.onMessage tb data now).2 = [OutMsg.step (Testbed.stepMessage tb.params).1] ∧
      (Testbed.onMessage tb data now).1.pendingTimers = tb.pendingTimers) ∨
    ((Testbed.onMessage tb data now).2 = [] ∧
      (Testbed.onMessage tb data now).1.pendingTimers = tb.pendingTimers ++
        [((Testbed.stepMessage tb.params).1, now + (now - tb.lastMessageTime))]) := by
  match data with
  | none =>
    rcases pacing_spec tb now with hp | hp <;>
      simp only [Testbed.onMessage, hp] <;> [exact Or.inl ⟨trivial, trivial⟩; exact Or.inr ⟨trivial, trivial⟩]
  | some d =>
    have hd : d.token = tb.demoToken := h d rfl
    have hne : ¬d.token ≠ tb.demoToken := by simp [hd]
    set tb1 : Testbed :=
      { tb with
          graphicsPositions := d.positions
          guiTiming := some d.stepTime
          guiDebug := some d } with htb1
    have h1 : Testbed.onMessage tb (some d) now = Testbed.pacing tb1 now := by
      simp only [Testbed.onMessage, if_neg hne]
    rcases pacing_spec tb1 now with hp | hp <;> rw [h1, hp]
    · exact Or.inl ⟨rfl, rfl⟩
    · exact Or.inr ⟨rfl, rfl⟩

/-- Witness for C4's amended theorem: a no-data receipt long after the
last dispatch posts the step message immediately. -/
theorem Claim4_amended_witness :
    ((Testbed.onMessage initSys.tb none 1000).2 =
        [OutMsg.step (Testbed.stepMessage initSys.tb.params).1] ∧
      (Testbed.onMessage initSys.tb none 1000).1.pendingTimers = initSys.tb.pendingTimers) ∨
    ((Testbed.onMessage initSys.tb none 1000).2 = [] ∧
      (Testbed.onMessage initSys.tb none 1000).1.pendingTimers = initSys.tb.pendingTimers ++
        [((Testbed.stepMessage initSys.tb.params).1, 1000 + (1000 - initSys.tb.lastMessageTime))]) :=
  Claim4_amended_fresh_result_paces _ _ _
    (by intro d hd; exact absurd hd (Option.not_mem_none d))

/-- C6: a step message built while `stepping` is set carries
`running = true`, the construction clears both `running` and `stepping`,
and the next message built from the resulting parameters carries
`running = false`. -/
theorem Claim6_single_step_semantics (p : SimulationParameters)
    (h : p.stepping = true) :
    (Testbed.stepMessage p).1.running = true ∧
    (Testbed.stepMessage p).2.running = false ∧
    (Testbed.stepMessage p).2.stepping = false ∧
    (Testbed.stepMessage (Testbed.stepMessage p).2).1.running = false := by
  simp [Testbed.stepMessage, h]

/-- Witness for C6 at concrete parameters with `stepping` set. -/
theorem Claim6_witness :
    (Testbed.stepMessage { initSys.tb.params with running := false, stepping := true }).1.running
        = true ∧
    (Testbed.stepMessage { initSys.tb.params with running := false, stepping := true }).2.running
        = false ∧
    (Testbed.stepMessage { initSys.tb.params with running := false, stepping := true }).2.stepping
        = false ∧
    (Testbed.stepMessage
        (Testbed.stepMessage
          { initSys.tb.params with running := false, stepping := true }).2).1.running = false :=
  Claim6_single_step_semantics _ rfl

/-- C7: for every joint, an axis or frame field the joint does not define
is encoded with its neutral default (`{0,0,0}` for axes, the identity
orientation `{x:0,y:0,z:0,w:1}` for frames), a defined field is copied
component-wise, and the anchors are always copied component-wise. -/
theorem Claim7_joint_neutral_defaults (j : Joint) :
    (j.axis1 = none → (encodeJoint j).axis1 = { x := 0, y := 0, z := 0 }) ∧
    (∀ v, j.axis1 = some v → (encodeJoint j).axis1 = { x := v.x, y := v.y, z := v.z }) ∧
    (j.axis2 = none → (encodeJoint j).axis2 = { x := 0, y := 0, z := 0 }) ∧
    (∀ v, j.axis2 = some v → (encodeJoint j).axis2 = { x := v.x, y := v.y, z := v.z }) ∧
    (j.frameX1 = none → (encodeJoint j).frameX1 = { x := 0, y := 0, z := 0, w := 1 }) ∧
    (∀ q, j.frameX1 = some q →
      (encodeJoint j).frameX1 = { x := q.x, y := q.y, z := q.z, w := q.w }) ∧
    (j.frameX2 = none → (encodeJoint j).frameX2 = { x := 0, y := 0, z := 0, w := 1 }) ∧
    (∀ q, j.frameX2 = some q →
      (encodeJoint j).frameX2 = { x := q.x, y := q.y, z := q.z, w := q.w }) ∧
    (encodeJoint j).anchor1 = { x := j.anchor1.x, y := j.anchor1.y, z := j.anchor1.z } ∧
    (encodeJoint j).anchor2 = { x := j.anchor2.x, y := j.anchor2.y, z := j.anchor2.z } := by
  refine ⟨fun h => ?_, fun v h => ?_, fun h => ?_, fun v h => ?_, fun h => ?_,
    fun q h => ?_, fun h => ?_, fun q h => ?_, rfl, rfl⟩ <;>
    simp [encodeJoint, h]

/-- Witness for C7: a joint defining `axis2` and `frameX2` but not `axis1`
and `frameX1` is encoded with the neutral defaults for the missing fields
and component copies for the present ones. -/
theorem Claim7_witness :
    (encodeJoint
        { bodyHandle1 := 1, bodyHandle2 := 2, jointType := 3
          anchor1 := { x := 4, y := 5, z := 6 }, anchor2 := { x := 7, y := 8, z := 9 }
          axis1 := none, axis2 := some { x := 10, y := 11, z := 12 }
          frameX1 := none, frameX2 := some { x := 13, y := 14, z := 15, w := 16 } }).axis1
      = { x := 0, y := 0, z := 0 } ∧
    (encodeJoint
        { bodyHandle1 := 1, bodyHandle2 := 2, jointType := 3
          anchor1 := { x := 4, y := 5, z := 6 }, anchor2 := { x := 7, y := 8, z := 9 }
          axis1 := none, axis2 := some { x := 10, y := 11, z := 12 }
          frameX1 := none, frameX2 := some { x := 13, y := 14, z := 15, w := 16 } }).axis2
      = { x := 10, y := 11, z := 12 } ∧
    (encodeJoint
        { bodyHandle1 := 1, bodyHandle2 := 2, jointType := 3
          anchor1 := { x := 4, y := 5, z := 6 }, anchor2 := { x := 7, y := 8, z := 9 }
          axis1 := none, axis2 := some { x := 10, y := 11, z := 12 }
          frameX1 := none, frameX2 := some { x := 13, y := 14, z := 15, w := 16 } }).frameX1
      = { x := 0, y := 0, z := 0, w := 1 } ∧
    (encodeJoint
        { bodyHandle1 := 1, bodyHandle2 := 2, jointType := 3
          anchor1 := { x := 4, y := 5, z := 6 }, anchor2 := { x := 7, y := 8, z := 9 }
          axis1 := none, axis2 := some { x := 10, y := 11, z := 12 }
          frameX1 := none, frameX2 := some { x := 13, y := 14, z := 15, w := 16 } }).frameX2
      = { x := 13, y := 14, z := 15, w := 16 } :=
  ⟨(Claim7_joint_neutral_defaults _).1 rfl,
    (Claim7_joint_neutral_defaults _).2.2.2.1 _ rfl,
    (Claim7_joint_neutral_defaults _).2.2.2.2.1 rfl,
    (Claim7_joint_neutral_defaults _).2.2.2.2.2.2.2.1 _ rfl⟩

/-- C8: the encoded collider record has a `halfExtents` field exactly when
the collider reports half-extents (present fields are copied
component-wise, absent ones are absent rather than zero-filled), and the
`radius` field is copied verbatim (absent exactly when the shape defines
no radius); the encoder is a total function, so encoding never fails. -/
theorem Claim8_collider_geometry_presence (c : Collider) :
    ((encodeCollider c).halfExtents.isSome ↔ c.halfExtents.isSome) ∧
    (c.halfExtents = none → (encodeCollider c).halfExtents = none) ∧
    (∀ he, c.halfExtents = some he →
      (encodeCollider c).halfExtents = some { x := he.x, y := he.y, z := he.z }) ∧
    (encodeCollider c).radius = c.radius := by
  refine ⟨?_, ?_, ?_, ?_⟩
  · cases h : c.halfExtents <;> simp [encodeCollider, h]
  · intro h
    simp [encodeCollider, h]
  · intro he h
    simp [encodeCollider, h]
  · cases h : c.halfExtents <;> simp [encodeCollider, h]

/-- Witness for C8: a ball-like collider (radius, no half-extents) and the
iff at a box-like collider (half-extents, no radius). -/
theorem Claim8_witness :
    (encodeCollider
        { handle := 1, parentHandle := 2, shapeType := 0, radius := some 3
          density := 1, friction := 1, isSensor := false, halfExtents := none }).halfExtents
      = none ∧
    (encodeCollider
        { handle := 1, parentHandle := 2, shapeType := 1, radius := none
          density := 1, friction := 1, isSensor := false
          halfExtents := some { x := 3, y := 4, z := 5 } }).halfExtents
      = some { x := 3, y := 4, z := 5 } :=
  ⟨(Claim8_collider_geometry_presence _).2.1 rfl,
    (Claim8_collider_geometry_presence _).2.2.1 _ rfl⟩

/-- The store-passing body loop only reads the store. -/
theorem encodeBodiesSt_eq (l : List Body) (s : Store) :
    encodeBodiesSt l s = (l.map encodeBody, s) := by
  induction l with
  | nil => rfl
  | cons b rest ih => simp [encodeBodiesSt, ih]

/-- The store-passing collider loop only reads the store. -/
theorem encodeCollidersSt_eq (l : List Collider) (s : Store) :
    encodeCollidersSt l s = (l.map encodeCollider, s) := by
  induction l with
  | nil => rfl
  | cons c rest ih => simp [encodeCollidersSt, ih]

/-- The store-passing joint loop only reads the store: `undefined` case. -/
theorem encodeJointsSt_none (s : Store) : encodeJointsSt none s = ([], s) := rfl

/-- The store-passing joint loop only reads the store: list case. -/
theorem encodeJointsSt_some (js : List Joint) (s : Store) :
    encodeJointsSt (some js) s = (js.map encodeJoint, s) := by
  show encodeJointListSt js s = (js.map encodeJoint, s)
  induction js with
  | nil => rfl
  | cons jt rest ih => simp [encodeJointListSt, ih]

/-- C9: the encoder is pure.  The store-passing embedding — in which every
JS method call could in principle have written to the session store —
returns the store unchanged, and its result coincides with the pure
function of the inputs, whose definition builds fresh records out of
component-wise copies of primitive values only. -/
theorem Claim9_extract_world_description_pure (s : Store) :
    (extractWorldDescriptionSt s).2 = s ∧
    (extractWorldDescriptionSt s).1 =
      extractWorldDescription s.world s.bodies s.colliders s.joints := by
  obtain ⟨w, b, c, j⟩ := s
  cases j <;>
    simp [extractWorldDescriptionSt, extractWorldDescription, encodeBodiesSt_eq,
      encodeCollidersSt_eq, encodeJointsSt_none, encodeJointsSt_some]

/-- C10: calling `setWorld` with the `joints` argument omitted stores an
empty joints array on the session, and the posted `setWorld` message
carries a description whose `joints` field is present and equal to the
empty list. -/
theorem Claim10_omitted_joints_encode_empty (tb : Testbed) (w : WorldObj)
    (b : List Body) (c : List Collider) (now : ℚ) :
    (Testbed.setWorld tb w b c none now).1.joints = [] ∧
    (extractWorldDescription
        { w with
            maxVelocityIterations := tb.params.numVelocityIter
            maxPositionIterations := tb.params.numPositionIter } b c none).joints = [] ∧
    (Testbed.setWorld tb w b c none now).2 =
      [OutMsg.setWorld tb.params.backend (tb.demoToken + 1)
          (extractWorldDescription
            { w with
                maxVelocityIterations := tb.params.numVelocityIter
                maxPositionIterations := tb.params.numPositionIter } b c none),
        OutMsg.step (Testbed.stepMessage tb.params).1] :=
  ⟨rfl, rfl, rfl⟩

/-- `setWorldTokens` distributes over log concatenation. -/
theorem setWorldTokens_append (l1 l2 : List OutMsg) :
    setWorldTokens (l1 ++ l2) = setWorldTokens l1 ++ setWorldTokens l2 := by
  simp [setWorldTokens]

/-- The pacing tail posts no `setWorld` message. -/
theorem pacing_no_setWorld_tokens (tb : Testbed) (now : ℚ) :
    setWorldTokens (Testbed.pacing tb now).2 = [] := by
  rcases pacing_spec tb now with h | h <;> rw [h] <;> rfl

/-- The pacing tail does not change `demoToken`. -/
theorem pacing_demoToken (tb : Testbed) (now : ℚ) :
    (Testbed.pacing tb now).1.demoToken = tb.demoToken := by
  rcases pacing_spec tb now with h | h <;> rw [h]

/-- The message handler posts no `setWorld` message. -/
theorem onMessage_no_setWorld_tokens (tb : Testbed) (data : Option ResultData) (now : ℚ) :
    setWorldTokens (Testbed.onMessage tb data now).2 = [] := by
  match data with
  | none => exact pacing_no_setWorld_tokens tb now
  | some d =>
    by_cases hd : d.token ≠ tb.demoToken
    · simp only [Testbed.onMessage, if_pos hd]
      rfl
    · simp only [Testbed.onMessage, if_neg hd]
      exact pacing_no_setWorld_tokens _ now

/-- The message handler does not change `demoToken`. -/
theorem onMessage_demoToken (tb : Testbed) (data : Option ResultData) (now : ℚ) :
    (Testbed.onMessage tb data now).1.demoToken = tb.demoToken := by
  match data with
  | none => exact pacing_demoToken tb now
  | some d =>
    by_cases hd : d.token ≠ tb.demoToken
    · simp only [Testbed.onMessage, if_pos hd]
    · simp only [Testbed.onMessage, if_neg hd]
      exact pacing_demoToken _ now

/-- A firing timer posts no `setWorld` message. -/
theorem timerFire_no_setWorld_tokens (tb : Testbed) (now : ℚ) :
    setWorldTokens (Testbed.timerFire tb now).2 = [] := by
  unfold Testbed.timerFire
  match tb.pendingTimers with
  | [] => rfl
  | (m, t) :: rest => rfl

/-- A firing timer does not change `demoToken`. -/
theorem timerFire_demoToken (tb : Testbed) (now : ℚ) :
    (Testbed.timerFire tb now).1.demoToken = tb.demoToken := by
  unfold Testbed.timerFire
  match tb.pendingTimers with
  | [] => rfl
  | (m, t) :: rest => rfl

/-- Each `setWorld` call posts exactly one `setWorld` message, carrying
the freshly incremented token. -/
theorem setWorld_tokens (tb : Testbed) (w : WorldObj) (b : List Body)
    (c : List Collider) (j : Option (List Joint)) (now : ℚ) :
    setWorldTokens (Testbed.setWorld tb w b c j now).2 = [tb.demoToken + 1] := rfl

/-- A `setWorld` call increments `demoToken` exactly once. -/
theorem setWorld_demoToken (tb : Testbed) (w : WorldObj) (b : List Body)
    (c : List Collider) (j : Option (List Joint)) (now : ℚ) :
    (Testbed.setWorld tb w b c j now).1.demoToken = tb.demoToken + 1 := rfl

/-- The token invariant is preserved by every event. -/
theorem tokenInv_step (s : Sys) (e : Event) (h : TokenInv s) :
    TokenInv (stepEvent s e) := by
  obtain ⟨hp, hb⟩ := h
  match e with
  | .result d now =>
    constructor
    · simpa [stepEvent, setWorldTokens_append, onMessage_no_setWorld_tokens] using hp
    · intro t ht
      simp only [stepEvent, setWorldTokens_append,
        onMessage_no_setWorld_tokens, List.append_nil] at ht
      simpa [stepEvent, onMessage_demoToken] using hb t ht
  | .timerFire now =>
    constructor
    · simpa [stepEvent, setWorldTokens_append, timerFire_no_setWorld_tokens] using hp
    · intro t ht
      simp only [stepEvent, setWorldTokens_append,
        timerFire_no_setWorld_tokens, List.append_nil] at ht
      simpa [stepEvent, timerFire_demoToken] using hb t ht
  | .renderTick => exact ⟨hp, hb⟩
  | .callSetWorld w b c j now =>
    constructor
    · rw [show setWorldTokens (stepEvent s (Event.callSetWorld w b c j now)).log
          = setWorldTokens s.log ++ [s.tb.demoToken + 1] by
        simp [stepEvent, setWorldTokens_append, setWorld_tokens]]
      rw [List.pairwise_append]
      refine ⟨hp, List.pairwise_singleton _ _, ?_⟩
      intro a ha b hb'
      rw [List.mem_singleton] at hb'
      subst hb'
      exact lt_of_le_of_lt (hb a ha) (by omega)
    · intro t ht
      rw [show setWorldTokens (stepEvent s (Event.callSetWorld w b c j now)).log
          = setWorldTokens s.log ++ [s.tb.demoToken + 1] by
        simp [stepEvent, setWorldTokens_append, setWorld_tokens]] at ht
      rw [List.mem_append, List.mem_singleton] at ht
      have hT : (stepEvent s (Event.callSetWorld w b c j now)).tb.demoToken
          = s.tb.demoToken + 1 := by
        simp [stepEvent, setWorld_demoToken]
      rw [hT]
      rcases ht with ht | ht
      · exact le_trans (hb t ht) (by omega)
      · omega

/-- The token invariant is preserved by every event sequence. -/
theorem tokenInv_run (s : Sys) (evs : List Event) (h : TokenInv s) :
    TokenInv (run s evs) := by
  induction evs generalizing s with
  | nil => exact h
  | cons e rest ih => exact ih _ (tokenInv_step s e h)

/-- `demoToken` grows by exactly the number of `setWorld` calls. -/
theorem run_demoToken (evs : List Event) : ∀ s : Sys,
    (run s evs).tb.demoToken = s.tb.demoToken + (evs.countP Event.isSetWorld : ℤ) := by
  induction evs with
  | nil => intro s; simp [run]
  | cons e rest ih =>
    intro s
    have hstep : (stepEvent s e).tb.demoToken =
        s.tb.demoToken + (if Event.isSetWorld e then (1 : ℤ) else 0) := by
      match e with
      | .result d now => simp [stepEvent, onMessage_demoToken, Event.isSetWorld]
      | .timerFire now => simp [stepEvent, timerFire_demoToken, Event.isSetWorld]
      | .renderTick => simp [stepEvent, Event.isSetWorld]
      | .callSetWorld w b c j now =>
        simp [stepEvent, setWorld_demoToken, Event.isSetWorld]
    rw [run_cons, ih (stepEvent s e), hstep, List.countP_cons]
    cases he : Event.isSetWorld e
    · simp [he]
    · simp [he]
      omega

/-- C1: over every event sequence, the tokens carried by the posted
`setWorld` messages are strictly increasing in posting order (hence never
reused), `demoToken` is incremented exactly once per `setWorld` call, and
each `setWorld` call posts exactly one `setWorld` message carrying the
freshly incremented token. -/
theorem Claim1_token_monotonicity (s : Sys) (evs : List Event)
    (h1 : List.Pairwise (· < ·) (setWorldTokens s.log))
    (h2 : ∀ t ∈ setWorldTokens s.log, t ≤ s.tb.demoToken) :
    List.Pairwise (· < ·) (setWorldTokens (run s evs).log) ∧
    List.Pairwise (· ≠ ·) (setWorldTokens (run s evs).log) ∧
    (run s evs).tb.demoToken = s.tb.demoToken + (evs.countP Event.isSetWorld : ℤ) ∧
    ∀ tb w b c j now,
      setWorldTokens (Testbed.setWorld tb w b c j now).2 = [tb.demoToken + 1] ∧
      (Testbed.setWorld tb w b c j now).1.demoToken = tb.demoToken + 1 := by
  have hinv := tokenInv_run s evs ⟨h1, h2⟩
  exact ⟨hinv.1, hinv.1.imp (fun h => ne_of_lt h), run_demoToken evs s,
    fun tb w b c j now => ⟨rfl, rfl⟩⟩

/-- Witness for C1 from the freshly constructed session over a concrete
event sequence containing two `setWorld` calls. -/
theorem Claim1_witness :
    List.Pairwise (· < ·) (setWorldTokens (run initSys twoTimerTrace).log) ∧
    List.Pairwise (· ≠ ·) (setWorldTokens (run initSys twoTimerTrace).log) ∧
    (run initSys twoTimerTrace).tb.demoToken =
      initSys.tb.demoToken + (twoTimerTrace.countP Event.isSetWorld : ℤ) ∧
    ∀ tb w b c j now,
      setWorldTokens (Testbed.setWorld tb w b c j now).2 = [tb.demoToken + 1] ∧
      (Testbed.setWorld tb w b c j now).1.demoToken = tb.demoToken + 1 :=
  Claim1_token_monotonicity initSys twoTimerTrace
    (by simp [initSys, setWorldTokens]) (by simp [initSys, setWorldTokens])

/-- The pacing tail creates exactly one step request: either one posted
step message, or one new deferred dispatch. -/
theorem pacing_budget (tb : Testbed) (now : ℚ) :
    (Testbed.pacing tb now).1.pendingTimers.length +
      countSteps (Testbed.pacing tb now).2 = tb.pendingTimers.length + 1 := by
  rcases pacing_spec tb now with h | h <;> rw [h] <;> simp [countSteps, isStepMsg]

/-- The message handler either returns early with nothing posted and no
state change (stale token), or creates exactly one step request. -/
theorem onMessage_budget (tb : Testbed) (data : Option ResultData) (now : ℚ) :
    Testbed.onMessage tb data now = (tb, []) ∨
    (Testbed.onMessage tb data now).1.pendingTimers.length +
      countSteps (Testbed.onMessage tb data now).2 = tb.pendingTimers.length + 1 := by
  match data with
  | none => exact Or.inr (pacing_budget tb now)
  | some d =>
    by_cases hd : d.token ≠ tb.demoToken
    · exact Or.inl (by simp only [Testbed.onMessage, if_pos hd])
    · refine Or.inr ?_
      simp only [Testbed.onMessage, if_neg hd]
      exact pacing_budget _ now

/-- One enabled non-`setWorld` event preserves the bound of one
outstanding step request (in flight or deferred). -/
theorem budget_step (s : Sys) (e : Event) (hns : e.isSetWorld = false)
    (hen : enabledB s e = true)
    (hinv : s.inFlight + s.tb.pendingTimers.length ≤ 1) :
    (stepEvent s e).inFlight + (stepEvent s e).tb.pendingTimers.length ≤ 1 := by
  match e with
  | .result d now =>
    have h1 : 1 ≤ s.inFlight := by simpa [enabledB] using hen
    rcases onMessage_budget s.tb d now with h | h
    · simp only [stepEvent, h, countSteps, List.countP_nil]
      omega
    · simp only [stepEvent]
      omega
  | .timerFire now =>
    match htm : s.tb.pendingTimers with
    | [] => simp [enabledB, htm] at hen
    | (m, t) :: rest =>
      have hlen : s.tb.pendingTimers.length = rest.length + 1 := by rw [htm]; rfl
      have hgoal : (stepEvent s (Event.timerFire now)).inFlight +
          (stepEvent s (Event.timerFire now)).tb.pendingTimers.length
          = s.inFlight + 1 + rest.length := by
        simp [stepEvent, Testbed.timerFire, htm, countSteps, isStepMsg]
      rw [hgoal]
      rw [hlen] at hinv
      omega
  | .renderTick => simpa [stepEvent] using hinv
  | .callSetWorld w b c j now => simp [Event.isSetWorld] at hns

/-- Along any legal sequence of non-`setWorld` events, the bound of one
outstanding step request is preserved. -/
theorem budget_run (evs : List Event) : ∀ s : Sys,
    (∀ e ∈ evs, e.isSetWorld = false) → legalB s evs = true →
    s.inFlight + s.tb.pendingTimers.length ≤ 1 →
    (run s evs).inFlight + (run s evs).tb.pendingTimers.length ≤ 1 := by
  induction evs with
  | nil => intro s _ _ h; simpa [run] using h
  | cons e rest ih =>
    intro s hns hleg hinv
    rw [run_cons]
    have h2 := (Bool.and_eq_true _ _).mp (by simpa [legalB] using hleg)
    exact ih (stepEvent s e) (fun e' he' => hns e' (List.mem_cons_of_mem _ he'))
      h2.2 (budget_step s e (hns e (List.mem_cons_self _ _)) h2.1 hinv)

/-- C5 counterexample: from the freshly constructed session, the legal
sequence "setWorld, result (schedules a deferred dispatch), setWorld
again, fresh result" leaves two deferred dispatches pending at once. -/
theorem Claim5_counterexample :
    legalB initSys twoTimerTrace = true ∧
    (run initSys twoTimerTrace).tb.pendingTimers.length = 2 := by
  constructor <;>
    norm_num [legalB, enabledB, stepEvent, run, Testbed.onMessage, Testbed.pacing,
      Testbed.stepMessage, Testbed.setWorld, Testbed.timerFire, countSteps, isStepMsg,
      initSys, wEx, dEx, twoTimerTrace]

/-- C5 amended: at most one deferred dispatch is pending along any legal
sequence of result arrivals, timer fires and render ticks that contains no
`setWorld` call, starting from a state with at most one outstanding step
request; a `setWorld` call made while a request is outstanding can let a
later fresh result enqueue a second deferred dispatch (see the
counterexample). -/
theorem Claim5_amended_single_deferred (s : Sys) (evs : List Event)
    (hns : ∀ e ∈ evs, e.isSetWorld = false)
    (hleg : legalB s evs = true)
    (hinv : s.inFlight + s.tb.pendingTimers.length ≤ 1) :
    (run s evs).tb.pendingTimers.length ≤ 1 := by
  have h := budget_run evs s hns hleg hinv
  omega

/-- Witness for C5's amended theorem on a concrete legal sequence. -/
theorem Claim5_amended_witness :
    (run initSys [Event.renderTick]).tb.pendingTimers.length ≤ 1 :=
  Claim5_amended_single_deferred initSys [Event.renderTick]
    (by intro e he; rw [List.mem_singleton] at he; subst he; rfl)
    rfl (by simp [initSys])

end Rapier
